import Mathlib

/-!
A shallow embedding of the `multichannel` crate (static variant, `src/lib.rs`):
a multi-producer single-consumer bundle of FIFO channels with priorities,
weights and freezable channels.

Modelling conventions:
* Each underlying crossbeam channel is a Lean `List` (front = oldest message),
  together with its capacity bound (`none` = unbounded).
* The `Parker`/`Unparker` pair is a single boolean token `wakeToken`
  (crossbeam's `Parker` coalesces multiple `unpark` calls into one token).
* `Arc` strong counts are tracked as `sendersAlive` (number of live
  `MultiSender` clones) and `receiverAlive`; the Rust
  `Arc::strong_count(&pending_msgs)` equals `sendersAlive + 1` while the
  receiver is alive.
* Rust panics (out-of-bounds indexing, `unreachable!`, `unwrap`) are
  represented by `Option.none` or by a dedicated `panicked` outcome.
* The `WeightedIndex` sample inside `recv` is abstracted by a `pick : Nat`
  parameter; the real sampler always yields an index below the candidate
  count, which the model enforces by reducing `pick` modulo that count.
* Execution is modelled sequentially (quiescent instants): each API call is a
  function from the bundle state to an outcome and a new state.
-/

namespace Multichannel

/-- One channel as seen by the receiving side (`struct Receiver<T>` plus the
capacity of its underlying crossbeam channel, fixed at build time). -/
structure Receiver (α : Type) where
  queue : List α
  frozen : Bool
  weight : Nat
  bound : Option Nat
  original_index : Nat
deriving Repr, DecidableEq

/-- The whole bundle state shared between `MultiSender` and `MultiReceiver`:
the priority-grouped channels, the `pending_msgs` counter, the liveness
counters and the parker token. -/
structure Bundle (α : Type) where
  groups : List (List (Receiver α))
  pending : Nat
  sendersAlive : Nat
  disconnected : Bool
  receiverAlive : Bool
  wakeToken : Bool
deriving Repr, DecidableEq

/-- Update the element at a given position of a list, identity out of range. -/
def updateAt (f : β → β) : Nat → List β → List β
  | _, [] => []
  | 0, x :: xs => f x :: xs
  | n + 1, x :: xs => x :: updateAt f n xs

/-- Update the channel at flat position `i` of the nested group list (the flat
position is the index used by the `senders` vector of the Rust code). -/
def updateFlatAt (f : Receiver α → Receiver α) : Nat → List (List (Receiver α)) → List (List (Receiver α))
  | _, [] => []
  | i, g :: rest =>
    if i < g.length then updateAt f i g :: rest
    else g :: updateFlatAt f (i - g.length) rest

/-- The channels in flat (build) order, as stored in the `senders` vector. -/
def flatChannels (b : Bundle α) : List (Receiver α) := b.groups.flatten

/-- Total number of channels configured at build time. -/
def numChannels (b : Bundle α) : Nat := (flatChannels b).length

/-- Flat list of `original_index` fields. -/
def origFlat (b : Bundle α) : List Nat := (flatChannels b).map (fun r => r.original_index)

/-- Layout invariant established by `build` and preserved by every operation:
the flat `original_index` fields are exactly `0, 1, ..., numChannels - 1`. -/
def WellIndexed (b : Bundle α) : Prop := origFlat b = List.range (numChannels b)

/-- The queue of the channel at flat position `i`, `none` out of bounds. -/
def queueOf (b : Bundle α) (i : Nat) : Option (List α) :=
  ((flatChannels b).get? i).map (fun r => r.queue)

/-! ## Building (`MultiChannelBuilder::build`) -/

/-- One channel descriptor of the builder: `(weight, bounds, frozen)`. -/
abbrev ChannelDesc := Nat × Option Nat × Bool

/-- Build the receivers of one priority group, assigning `original_index`
starting from `start` (the running `absolute_index` of the Rust code). -/
def buildGroup (α : Type) : Nat → List ChannelDesc → List (Receiver α)
  | _, [] => []
  | start, (w, bnd, f) :: rest =>
    { queue := [], frozen := f, weight := w, bound := bnd, original_index := start }
      :: buildGroup α (start + 1) rest

/-- Build all priority groups, threading the absolute index. -/
def buildGroupsAux (α : Type) : Nat → List (List ChannelDesc) → List (List (Receiver α))
  | _, [] => []
  | start, g :: rest => buildGroup α start g :: buildGroupsAux α (start + g.length) rest

/-- The bundle produced by `MultiChannelBuilder::build`: empty queues, zero
pending counter, one live `MultiSender`, not disconnected, no parker token. -/
def buildBundle (α : Type) (cs : List (List ChannelDesc)) : Bundle α :=
  { groups := buildGroupsAux α 0 cs
    pending := 0
    sendersAlive := 1
    disconnected := false
    receiverAlive := true
    wakeToken := false }

namespace MultiChannelBuilder

/-- `MultiChannelBuilder::build` in the abort monad (`none` would be a panic):
the Rust body performs no validation of the descriptors (in particular no
weight check) and contains no panicking operation, so it always constructs. -/
def build (α : Type) (cs : List (List ChannelDesc)) : Option (Bundle α) :=
  some (buildBundle α cs)

end MultiChannelBuilder

/-! ## Sending (`MultiSender`) -/

/-- Outcome of `MultiSender::send`. `panicked` is the out-of-bounds indexing
panic of `self.senders[index]`; `blocked` is a blocking push on a full bounded
(or rendezvous) channel, carrying the state at the moment of blocking;
`err` is `Err(SendSerror::ReceiverDropped)` with the (otherwise unchanged)
state; `ok` is `Ok(())` with the updated state. -/
inductive SendOutcome (α : Type) where
  | panicked
  | blocked (b : Bundle α)
  | err (b : Bundle α)
  | ok (b : Bundle α)
deriving Repr, DecidableEq

/-- Push `m` at the back of channel `i`. -/
def pushAt (b : Bundle α) (i : Nat) (m : α) : Bundle α :=
  { b with groups := updateFlatAt (fun r => { r with queue := r.queue ++ [m] }) i b.groups }

namespace MultiSender

/-- `MultiSender::send(index, msg)`:
unpark; attempt `self.senders[index].inner.send(msg)` (panics if `index` is
out of bounds, fails if the receiver was dropped, blocks if a bounded channel
is full — including capacity 0, rendezvous); on success unpark again and
increment `pending_msgs`. -/
def send (b : Bundle α) (i : Nat) (m : α) : SendOutcome α :=
  match (flatChannels b).get? i with
  | none => .panicked
  | some r =>
    if b.receiverAlive = false then .err { b with wakeToken := true }
    else
      match r.bound with
      | some c =>
        if r.queue.length < c then
          .ok { pushAt b i m with pending := b.pending + 1, wakeToken := true }
        else .blocked { b with wakeToken := true }
      | none => .ok { pushAt b i m with pending := b.pending + 1, wakeToken := true }

/-- The sequence of externally visible effects of one `send` call, in program
order, used to state the signal-before-push property. -/
inductive SendEvent where
  | unparkSig
  | pushAttempt
  | incPending
  | panicked
deriving Repr, DecidableEq

/-- Effect trace of `MultiSender::send`: the first statement is
`self.unparker.unpark()`; evaluating `self.senders[index]` panics out of
bounds; otherwise the push is attempted; only a successful push is followed by
the second unpark and the counter increment (a failed push returns early, a
blocking push never returns in the sequential model). -/
def sendEvents (b : Bundle α) (i : Nat) : List SendEvent :=
  SendEvent.unparkSig ::
    match (flatChannels b).get? i with
    | none => [SendEvent.panicked]
    | some r =>
      SendEvent.pushAttempt ::
        (if b.receiverAlive = false then []
         else
           match r.bound with
           | some c =>
             if r.queue.length < c then [SendEvent.unparkSig, SendEvent.incPending]
             else []
           | none => [SendEvent.unparkSig, SendEvent.incPending])

/-- `MultiSender::freeze(index)`: store `true` into the frozen flag of
`self.senders[index]` (panic out of bounds). The parker token is untouched. -/
def freeze (b : Bundle α) (i : Nat) : Option (Bundle α) :=
  if i < numChannels b then
    some { b with groups := updateFlatAt (fun r => { r with frozen := true }) i b.groups }
  else none

/-- `MultiSender::unfreeze(index)`: store `false` into the frozen flag of
`self.senders[index]` (panic out of bounds). Note: the Rust body is a single
atomic store; it does not call `self.unparker.unpark()`, so `wakeToken` is
untouched. -/
def unfreeze (b : Bundle α) (i : Nat) : Option (Bundle α) :=
  if i < numChannels b then
    some { b with groups := updateFlatAt (fun r => { r with frozen := false }) i b.groups }
  else none

/-- `MultiSender::pending_msgs()`. -/
def pending_msgs (b : Bundle α) : Nat := b.pending

/-- `MultiSender::pending_msgs_by_channel(index)`:
`self.senders[index].inner.len()` (panic out of bounds). -/
def pending_msgs_by_channel (b : Bundle α) (i : Nat) : Option Nat :=
  ((flatChannels b).get? i).map (fun r => r.queue.length)

/-- `impl Drop for MultiSender`: if `Arc::strong_count(&self.pending_msgs)`
is 2 at drop time (this handle plus one other), raise the disconnected flag
and unpark the consumer; then the strong count drops by one. -/
def dropSender (b : Bundle α) : Bundle α :=
  if b.sendersAlive + (if b.receiverAlive then 1 else 0) = 2 then
    { b with sendersAlive := b.sendersAlive - 1, disconnected := true, wakeToken := true }
  else { b with sendersAlive := b.sendersAlive - 1 }

/-- `Clone for MultiSender` (derived): one more live handle. -/
def cloneSender (b : Bundle α) : Bundle α :=
  { b with sendersAlive := b.sendersAlive + 1 }

end MultiSender

/-! ## Receiving (`MultiReceiver`) -/

/-- Eligibility test of the priority scan:
`!inner.is_empty() && !frozen.load(...)`. -/
def eligible (r : Receiver α) : Bool := !r.queue.isEmpty && !r.frozen

/-- The scan of `recv` (lines 80-90): index of the first (highest-priority)
group containing a non-empty unfrozen channel. -/
def findPrio : List (List (Receiver α)) → Option Nat
  | [] => none
  | g :: rest => if g.any eligible then some 0 else (findPrio rest).map (fun n => n + 1)

/-- Pair each receiver of a group with its position. -/
def withIdx : Nat → List (Receiver α) → List (Nat × Receiver α)
  | _, [] => []
  | j, r :: rs => (j, r) :: withIdx (j + 1) rs

/-- The candidate list of `recv` (the two `partition` calls, lines 102-109):
the unfrozen, non-empty channels of the selected group, with their positions.
The Rust `partition` also reorders the group in place; the reordering is not
observable (every later access is by `original_index` or a search), so the
model keeps the group order fixed. -/
def candPairs (g : List (Receiver α)) : List (Nat × Receiver α) :=
  ((withIdx 0 g).filter (fun pr => !pr.2.frozen)).filter (fun pr => !pr.2.queue.isEmpty)

/-- Outcome of one iteration of the `recv` loop body (after `park` returns).
`park` means the `continue` paths: the loop goes back to `self.parker.park()`,
which blocks until a token arrives. `panicked` is the
`WeightedIndex::new(..).unwrap()` panic when all candidate weights are zero. -/
inductive RecvOutcome (α : Type) where
  | ok (m : α) (b : Bundle α)
  | allSendersDropped
  | park
  | panicked
deriving Repr, DecidableEq

/-- Pop the head of a receiver queue. -/
def popQueue (r : Receiver α) : Receiver α := { r with queue := r.queue.tail }

/-- The tail of a successful selection (lines 115-130): self-unpark, decrement
`pending_msgs`, then `inner.recv()` on the chosen channel at position `pr.1`
of group `p`. On a non-empty queue `inner.recv()` returns the front message;
the `Err` arm (empty and disconnected) maps to `AllSendersDropped`. -/
def popReturn (b : Bundle α) (p : Nat) (pr : Nat × Receiver α) : RecvOutcome α :=
  match pr.2.queue with
  | [] => .allSendersDropped
  | m :: _ =>
    .ok m
      { b with
        groups := updateAt (updateAt popQueue pr.1) p b.groups
        pending := b.pending - 1
        wakeToken := true }

namespace MultiReceiver

/-- The selection step of `recv` on the chosen priority group `p`
(lines 102-130): build the candidate list; `continue` (park) if it is empty;
take the single candidate directly if it is alone (`receivers.len() == 1`,
no weight check, the `none` arm is unreachable); otherwise
`WeightedIndex::new(..).unwrap()` panics when all candidate weights are zero,
else the sampled candidate (abstracted by `pick`, always in range) is
popped. -/
def recvSelect (b : Bundle α) (p : Nat) (pick : Nat) : RecvOutcome α :=
  let cands := candPairs ((b.groups.get? p).getD [])
  if cands.length = 0 then .park
  else if cands.length = 1 then
    match cands.get? 0 with
    | some pr => popReturn b p pr
    | none => .park
  else if (cands.map (fun pr => pr.2.weight)).sum = 0 then .panicked
  else
    match cands.get? (pick % cands.length) with
    | some pr => popReturn b p pr
    | none => .park

/-- One iteration of the body of `MultiReceiver::recv` (the code after
`self.parker.park()`), with the weighted sample abstracted as `pick`:
scan for the highest-priority group with an eligible channel; if none, return
`AllSendersDropped` when the senders are gone (strong count 1) or the
disconnected flag is raised, else loop back to park; otherwise run the
selection step on that group. -/
def recvBody (b : Bundle α) (pick : Nat) : RecvOutcome α :=
  match findPrio b.groups with
  | none =>
    if b.sendersAlive = 0 then .allSendersDropped
    else if b.disconnected then .allSendersDropped
    else .park
  | some p => recvSelect b p pick

/-- The message returned by a successful `recv`, if any. -/
def recvMsg (b : Bundle α) (pick : Nat) : Option α :=
  match recvBody b pick with
  | .ok m _ => some m
  | _ => none

/-- The state after a successful `recv`, if any. -/
def recvNext (b : Bundle α) (pick : Nat) : Option (Bundle α) :=
  match recvBody b pick with
  | .ok _ b2 => some b2
  | _ => none

/-- `MultiReceiver::pending_msgs()`. -/
def pending_msgs (b : Bundle α) : Nat := b.pending

/-- The loop of `MultiReceiver::pending_msgs_by_channel` (lines 138-154):
skip whole groups while `current_index + prio.len() <= index`, then search the
group for the receiver with the matching `original_index`. Both
`unreachable!()` arms are panics, modelled as `none`. -/
def pbcAux (index : Nat) : Nat → List (List (Receiver α)) → Option Nat
  | _, [] => none
  | cur, g :: rest =>
    if cur + g.length ≤ index then pbcAux index (cur + g.length) rest
    else
      match g.find? (fun r => r.original_index == index) with
      | some r => some r.queue.length
      | none => none

/-- `MultiReceiver::pending_msgs_by_channel(index)` (panic modelled as
`none`). -/
def pending_msgs_by_channel (b : Bundle α) (index : Nat) : Option Nat :=
  pbcAux index 0 b.groups

end MultiReceiver

/-- The state after a successful `send`, if any. -/
def sendOk (b : Bundle α) (i : Nat) (m : α) : Option (Bundle α) :=
  match MultiSender.send b i m with
  | .ok b2 => some b2
  | _ => none

/-- Sum of all queue lengths. -/
def totalQueued (b : Bundle α) : Nat :=
  ((flatChannels b).map (fun r => r.queue.length)).sum

/-! ## Sequential execution traces

A quiescent instant is a state reached by a finite sequence of completed API
calls, starting from a freshly built bundle. -/

/-- One API call of the bundle (with the receiver's weighted sample
abstracted as `pick`). -/
inductive Op (α : Type) where
  | send (i : Nat) (m : α)
  | recv (pick : Nat)
  | freeze (i : Nat)
  | unfreeze (i : Nat)
  | dropSender
  | cloneSender
deriving Repr

/-- A bundle state together with the number of `send` calls that returned
`Ok` and the number of `recv` calls that returned `Ok` so far. -/
structure Trace (α : Type) where
  bundle : Bundle α
  sendOks : Nat
  recvOks : Nat
deriving Repr

/-- Apply one API call to a trace. Calls that panic or block do not complete
and leave the accounted state unchanged (only a completed `send`/`recv`
can contribute to a quiescent instant). -/
def applyOp (t : Trace α) : Op α → Trace α
  | .send i m =>
    match MultiSender.send t.bundle i m with
    | .ok b2 => { bundle := b2, sendOks := t.sendOks + 1, recvOks := t.recvOks }
    | .err b2 => { t with bundle := b2 }
    | .blocked _ => t
    | .panicked => t
  | .recv pick =>
    match MultiReceiver.recvBody t.bundle pick with
    | .ok _ b2 => { bundle := b2, sendOks := t.sendOks, recvOks := t.recvOks + 1 }
    | _ => t
  | .freeze i => { t with bundle := (MultiSender.freeze t.bundle i).getD t.bundle }
  | .unfreeze i => { t with bundle := (MultiSender.unfreeze t.bundle i).getD t.bundle }
  | .dropSender => { t with bundle := MultiSender.dropSender t.bundle }
  | .cloneSender => { t with bundle := MultiSender.cloneSender t.bundle }

/-- Run a list of API calls on a freshly built bundle. -/
def runOps (α : Type) (cs : List (List ChannelDesc)) (ops : List (Op α)) : Trace α :=
  ops.foldl applyOp { bundle := buildBundle α cs, sendOks := 0, recvOks := 0 }

/-! ## Concrete fixtures for the end-to-end scenarios -/

/-- Two priorities, one unbounded channel each, weights 1 and 1. -/
def prioDemoCs : List (List ChannelDesc) := [[(1, none, false)], [(1, none, false)]]

/-- The freshly built two-priority bundle. -/
def prioDemo0 : Bundle String := buildBundle String prioDemoCs

/-- After sending the string mid to the low-priority channel (index 1). -/
def prioDemo1 : Bundle String := (sendOk prioDemo0 1 "mid").getD prioDemo0

/-- After additionally sending the string hi to the high-priority channel
(index 0). -/
def prioDemo2 : Bundle String := (sendOk prioDemo1 0 "hi").getD prioDemo0

/-- After the first `recv`. -/
def prioDemo3 : Bundle String := (MultiReceiver.recvNext prioDemo2 0).getD prioDemo0

/-- A bundle whose single channel is frozen and holds one queued message,
with the consumer parked (no wake token): reached by building
`[[(1, none, true)]]`, sending one message, and the consumer having consumed
the token of that send in a fruitless selection pass. -/
def c5bundle : Bundle String :=
  { (sendOk (buildBundle String [[(1, none, true)]]) 0 "pre").getD (buildBundle String [])
    with wakeToken := false }

/-- The state after `unfreeze(0)` on `c5bundle`. -/
def c5after : Bundle String :=
  (MultiSender.unfreeze c5bundle 0).getD (buildBundle String [])

/-- One priority with a frozen channel 0 (holding a message) and an unfrozen
channel 1 (holding a message): fixture for the freeze invariant. -/
def frozenDemo : Bundle String :=
  ((sendOk (buildBundle String [[(1, none, true), (1, none, false)]]) 0 "frozen-msg").bind
    (fun b => sendOk b 1 "live-msg")).getD (buildBundle String [])

/-- The frozen channel of `frozenDemo`, as a record literal. -/
def frozenChan : Receiver String :=
  { queue := ["frozen-msg"], frozen := true, weight := 1, bound := none, original_index := 0 }

/-- The state of `frozenDemo` after one `recv`. -/
def frozenDemoAfter : Bundle String :=
  (MultiReceiver.recvNext frozenDemo 0).getD (buildBundle String [])

/-- A one-channel bundle whose receiver has been dropped. -/
def droppedRxDemo : Bundle Nat :=
  { buildBundle Nat [[(1, none, false)]] with receiverAlive := false }

/-- A one-channel bundle whose only sender has been dropped. -/
def droppedTxDemo : Bundle String :=
  MultiSender.dropSender (buildBundle String [[(1, none, false)]])

/-- A two-channel bundle (one rendezvous, one unbounded) for the indexing and
pre-signal witnesses. -/
def twoChanDemo : Bundle Nat := buildBundle Nat [[(1, some 0, false)], [(2, none, false)]]

/-- The invariant carried along every execution trace: the pending counter
equals the total number of queued messages, the flat layout keeps the build
indexing, and the counter accounts for the completed sends and receives. -/
def TraceInv (t : Trace α) : Prop :=
  t.bundle.pending = totalQueued t.bundle ∧ WellIndexed t.bundle ∧
    t.bundle.pending + t.recvOks = t.sendOks

/-! ## Lemmas about the list helpers -/

theorem updateAt_length (f : β → β) (n : Nat) (l : List β) :
    (updateAt f n l).length = l.length := by
  induction l generalizing n with
  | nil => cases n <;> rfl
  | cons x xs ih =>
    cases n with
    | zero => rfl
    | succ k => simp [updateAt, ih]

theorem updateAt_get?_eq (f : β → β) (n : Nat) (l : List β) :
    (updateAt f n l).get? n = (l.get? n).map f := by
  induction l generalizing n with
  | nil => cases n <;> rfl
  | cons x xs ih =>
    cases n with
    | zero => rfl
    | succ k => simpa [updateAt] using ih k

theorem updateAt_get?_ne (f : β → β) (n k : Nat) (l : List β) (h : k ≠ n) :
    (updateAt f n l).get? k = l.get? k := by
  induction l generalizing n k with
  | nil => cases n <;> rfl
  | cons x xs ih =>
    cases n with
    | zero =>
      cases k with
      | zero => exact absurd rfl h
      | succ j => rfl
    | succ m =>
      cases k with
      | zero => rfl
      | succ j => simpa [updateAt] using ih m j (by omega)

theorem updateAt_append_left (f : β → β) (n : Nat) (l₁ l₂ : List β)
    (h : n < l₁.length) : updateAt f n (l₁ ++ l₂) = updateAt f n l₁ ++ l₂ := by
  induction l₁ generalizing n with
  | nil => simp at h
  | cons x xs ih =>
    cases n with
    | zero => rfl
    | succ k => simpa [updateAt] using ih k (by simpa using h)

theorem updateAt_append_right (f : β → β) (n : Nat) (l₁ l₂ : List β)
    (h : l₁.length ≤ n) :
    updateAt f n (l₁ ++ l₂) = l₁ ++ updateAt f (n - l₁.length) l₂ := by
  induction l₁ generalizing n with
  | nil => simp
  | cons x xs ih =>
    cases n with
    | zero => simp at h
    | succ k =>
      have := ih k (by simpa using h)
      simpa [updateAt, Nat.succ_sub_succ] using this

theorem map_updateAt_comp (g : β → γ) (f : β → β) (n : Nat) (l : List β)
    (hgf : ∀ x, g (f x) = g x) : (updateAt f n l).map g = l.map g := by
  induction l generalizing n with
  | nil => cases n <;> rfl
  | cons x xs ih =>
    cases n with
    | zero => simp [updateAt, hgf]
    | succ k => simp [updateAt, ih]

theorem sum_map_updateAt (g : β → Nat) (f : β → β) (i : Nat) (l : List β)
    (x : β) (h : l.get? i = some x) :
    ((updateAt f i l).map g).sum + g x = (l.map g).sum + g (f x) := by
  induction l generalizing i with
  | nil => simp at h
  | cons y ys ih =>
    cases i with
    | zero =>
      have hx : y = x := by simpa using h
      subst hx
      simp [updateAt]
      omega
    | succ k =>
      have hk : ys.get? k = some x := by simpa using h
      have := ih k hk
      simp [updateAt]
      omega

theorem withIdx_mem (g : List (Receiver α)) (k j : Nat) (r : Receiver α)
    (h : (j, r) ∈ withIdx k g) : k ≤ j ∧ g.get? (j - k) = some r := by
  induction g generalizing k with
  | nil => simp [withIdx] at h
  | cons r0 rest ih =>
    simp only [withIdx, List.mem_cons] at h
    rcases h with h | h
    · injection h with hj hr
      subst hj
      subst hr
      simp
    · obtain ⟨hk, hg⟩ := ih (k + 1) h
      refine ⟨by omega, ?_⟩
      have : j - k = (j - (k + 1)) + 1 := by omega
      rw [this]
      simpa using hg

theorem mem_candPairs (g : List (Receiver α)) (pr : Nat × Receiver α)
    (h : pr ∈ candPairs g) :
    g.get? pr.1 = some pr.2 ∧ pr.2.frozen = false ∧ pr.2.queue.isEmpty = false := by
  unfold candPairs at h
  rw [List.mem_filter] at h
  obtain ⟨h1, hne⟩ := h
  rw [List.mem_filter] at h1
  obtain ⟨h0, hfz⟩ := h1
  have hmem : (pr.1, pr.2) ∈ withIdx 0 g := by simpa using h0
  have := withIdx_mem g 0 pr.1 pr.2 hmem
  refine ⟨by simpa using this.2, ?_, ?_⟩
  · revert hfz
    cases pr.2.frozen <;> simp
  · revert hne
    cases pr.2.queue.isEmpty <;> simp

theorem findPrio_spec (gs : List (List (Receiver α))) (p : Nat)
    (h : findPrio gs = some p) :
    ∃ g, gs.get? p = some g ∧ g.any eligible = true ∧
      ∀ q gq, q < p → gs.get? q = some gq → gq.any eligible = false := by
  induction gs generalizing p with
  | nil => simp [findPrio] at h
  | cons g rest ih =>
    by_cases hg : g.any eligible = true
    · have hp : p = 0 := by
        simp [findPrio, hg] at h
        omega
      subst hp
      exact ⟨g, rfl, hg, fun q gq hq => by omega⟩
    · have hg' : g.any eligible = false := by
        revert hg; cases g.any eligible <;> simp
      simp only [findPrio, hg', Bool.false_eq_true, if_false] at h
      obtain ⟨p', hp', hpp⟩ := Option.map_eq_some'.mp h
      obtain ⟨g', hget, hany, hmin⟩ := ih p' hp'
      refine ⟨g', by simpa [← hpp] using hget, hany, ?_⟩
      intro q gq hq hgq
      cases q with
      | zero =>
        have hge : g = gq := by simpa using hgq
        exact hge ▸ hg'
      | succ q' =>
        exact hmin q' gq (by omega) (by simpa using hgq)

theorem findPrio_none (gs : List (List (Receiver α))) :
    findPrio gs = none ↔ ∀ g ∈ gs, g.any eligible = false := by
  induction gs with
  | nil => simp [findPrio]
  | cons g rest ih =>
    by_cases hg : g.any eligible = true
    · constructor
      · intro h
        rw [findPrio, hg] at h
        simp at h
      · intro h
        have hfalse := h g (List.mem_cons_self ..)
        rw [hg] at hfalse
        cases hfalse
    · have hg' : g.any eligible = false := by
        revert hg; cases g.any eligible <;> simp
      rw [findPrio, hg']
      simp only [Bool.false_eq_true, if_false, Option.map_eq_none', ih]
      constructor
      · intro h g' hmem
        rcases List.mem_cons.mp hmem with rfl | hmem'
        · exact hg'
        · exact h g' hmem'
      · intro h g' hmem
        exact h g' (List.mem_cons_of_mem _ hmem)

theorem popReturn_ok (b : Bundle α) (p : Nat) (pr : Nat × Receiver α)
    (m : α) (b2 : Bundle α) (h : popReturn b p pr = .ok m b2) :
    pr.2.queue.head? = some m ∧
    b2 = { b with
            groups := updateAt (updateAt popQueue pr.1) p b.groups
            pending := b.pending - 1
            wakeToken := true } := by
  unfold popReturn at h
  cases hq : pr.2.queue with
  | nil => rw [hq] at h; simp at h
  | cons m0 rest =>
    rw [hq] at h
    injection h with h1 h2
    subst h1
    exact ⟨by simp [hq], h2.symm⟩

theorem popReturn_not_dropped (b : Bundle α) (p : Nat) (pr : Nat × Receiver α)
    (hq : pr.2.queue.isEmpty = false) :
    popReturn b p pr ≠ .allSendersDropped := by
  unfold popReturn
  cases hqq : pr.2.queue with
  | nil => rw [hqq] at hq; simp at hq
  | cons m0 rest => simp

theorem recvSelect_ok (b : Bundle α) (p pick : Nat) (m : α) (b2 : Bundle α)
    (h : MultiReceiver.recvSelect b p pick = .ok m b2) :
    ∃ pr, pr ∈ candPairs ((b.groups.get? p).getD []) ∧ popReturn b p pr = .ok m b2 := by
  unfold MultiReceiver.recvSelect at h
  dsimp only at h
  by_cases h0 : (candPairs ((b.groups.get? p).getD [])).length = 0
  · rw [if_pos h0] at h
    simp at h
  · rw [if_neg h0] at h
    by_cases h1 : (candPairs ((b.groups.get? p).getD [])).length = 1
    · rw [if_pos h1] at h
      cases hget : (candPairs ((b.groups.get? p).getD [])).get? 0 with
      | none => rw [hget] at h; simp at h
      | some pr => rw [hget] at h; exact ⟨pr, List.get?_mem hget, h⟩
    · rw [if_neg h1] at h
      by_cases hw :
          ((candPairs ((b.groups.get? p).getD [])).map (fun pr => pr.2.weight)).sum = 0
      · rw [if_pos hw] at h
        simp at h
      · rw [if_neg hw] at h
        cases hget : (candPairs ((b.groups.get? p).getD [])).get?
            (pick % (candPairs ((b.groups.get? p).getD [])).length) with
        | none => rw [hget] at h; simp at h
        | some pr => rw [hget] at h; exact ⟨pr, List.get?_mem hget, h⟩

theorem recvSelect_not_dropped (b : Bundle α) (p pick : Nat) :
    MultiReceiver.recvSelect b p pick ≠ .allSendersDropped := by
  unfold MultiReceiver.recvSelect
  dsimp only
  by_cases h0 : (candPairs ((b.groups.get? p).getD [])).length = 0
  · rw [if_pos h0]
    simp
  · rw [if_neg h0]
    by_cases h1 : (candPairs ((b.groups.get? p).getD [])).length = 1
    · rw [if_pos h1]
      cases hget : (candPairs ((b.groups.get? p).getD [])).get? 0 with
      | none => simp
      | some pr =>
        exact popReturn_not_dropped b p pr
          (mem_candPairs _ pr (List.get?_mem hget)).2.2
    · rw [if_neg h1]
      by_cases hw :
          ((candPairs ((b.groups.get? p).getD [])).map (fun pr => pr.2.weight)).sum = 0
      · rw [if_pos hw]
        simp
      · rw [if_neg hw]
        cases hget : (candPairs ((b.groups.get? p).getD [])).get?
            (pick % (candPairs ((b.groups.get? p).getD [])).length) with
        | none => simp
        | some pr =>
          exact popReturn_not_dropped b p pr
            (mem_candPairs _ pr (List.get?_mem hget)).2.2

theorem recv_ok_shape (b : Bundle α) (pick : Nat) (m : α) (b2 : Bundle α)
    (h : MultiReceiver.recvBody b pick = .ok m b2) :
    ∃ p g pr, findPrio b.groups = some p ∧ b.groups.get? p = some g ∧
      pr ∈ candPairs g ∧ popReturn b p pr = .ok m b2 := by
  unfold MultiReceiver.recvBody at h
  cases hfp : findPrio b.groups with
  | none =>
    rw [hfp] at h
    by_cases hs : b.sendersAlive = 0 <;> by_cases hd : b.disconnected <;>
      simp [hs, hd] at h
  | some p =>
    rw [hfp] at h
    obtain ⟨g, hg, hany, hmin⟩ := findPrio_spec b.groups p hfp
    obtain ⟨pr, hmem, hpop⟩ := recvSelect_ok b p pick m b2 h
    rw [hg] at hmem
    exact ⟨p, g, pr, rfl, hg, by simpa using hmem, hpop⟩

theorem recv_some_not_dropped (b : Bundle α) (pick : Nat) (p : Nat)
    (hfp : findPrio b.groups = some p) :
    MultiReceiver.recvBody b pick ≠ .allSendersDropped := by
  unfold MultiReceiver.recvBody
  rw [hfp]
  exact recvSelect_not_dropped b p pick

end Multichannel

namespace Multichannel

/-! ## Claim theorems -/

/-- C1 (confirmed): whenever `recv` returns `Ok m`, the message `m` is popped
from a non-empty unfrozen channel of the highest-priority group containing a
non-empty unfrozen channel; in particular, after sending mid to the
low-priority channel and hi to the high-priority channel (both weight 1), the
first `recv` returns hi and the second returns mid. -/
theorem recv_takes_highest_priority :
    (∀ (α : Type) (b : Bundle α) (pick : Nat) (m : α) (b2 : Bundle α),
      MultiReceiver.recvBody b pick = RecvOutcome.ok m b2 →
      ∃ p g j r, findPrio b.groups = some p ∧
        (∀ q gq, q < p → b.groups.get? q = some gq → gq.any eligible = false) ∧
        b.groups.get? p = some g ∧ g.get? j = some r ∧
        r.frozen = false ∧ r.queue.head? = some m) ∧
    MultiReceiver.recvMsg prioDemo2 0 = some "hi" ∧
    MultiReceiver.recvMsg prioDemo3 0 = some "mid" := by
  refine ⟨?_, rfl, rfl⟩
  intro α b pick m b2 h
  obtain ⟨p, g, pr, hfp, hg, hmem, hpop⟩ := recv_ok_shape b pick m b2 h
  obtain ⟨hget, hfz, hne⟩ := mem_candPairs g pr hmem
  obtain ⟨hhead, hb2⟩ := popReturn_ok b p pr m b2 hpop
  obtain ⟨g', hg', hany', hmin⟩ := findPrio_spec b.groups p hfp
  exact ⟨p, g, pr.1, pr.2, hfp, hmin, hg, hget, hfz, hhead⟩

/-- Witness for C1: the general theorem applied to the concrete two-priority
scenario, where the first `recv` pops hi from the high-priority group 0. -/
theorem recv_takes_highest_priority_witness :
    ∃ p g j r, findPrio prioDemo2.groups = some p ∧
      (∀ q gq, q < p → prioDemo2.groups.get? q = some gq → gq.any eligible = false) ∧
      prioDemo2.groups.get? p = some g ∧ g.get? j = some r ∧
      r.frozen = false ∧ r.queue.head? = some "hi" :=
  recv_takes_highest_priority.1 String prioDemo2 0 "hi" prioDemo3 (by rfl)

/-- C2 (confirmed): `recv` returns `Err(AllSendersDropped)` exactly when every
`MultiSender` handle has been dropped and no channel is non-empty and unfrozen
(the hypothesis is the system invariant that the disconnected flag is only
raised by the last sender drop). -/
theorem recv_all_senders_dropped_iff (α : Type) (b : Bundle α) (pick : Nat)
    (hInv : b.disconnected = true → b.sendersAlive = 0) :
    MultiReceiver.recvBody b pick = RecvOutcome.allSendersDropped ↔
      (b.sendersAlive = 0 ∧ ∀ g ∈ b.groups, ∀ r ∈ g, eligible r = false) := by
  constructor
  · intro h
    cases hfp : findPrio b.groups with
    | some p => exact absurd h (recv_some_not_dropped b pick p hfp)
    | none =>
      have hnone := (findPrio_none b.groups).mp hfp
      have hptwise : ∀ g ∈ b.groups, ∀ r ∈ g, eligible r = false := by
        intro g hgmem r hrmem
        have hany := List.any_eq_false.mp (hnone g hgmem) r hrmem
        revert hany
        cases eligible r <;> simp
      refine ⟨?_, hptwise⟩
      unfold MultiReceiver.recvBody at h
      rw [hfp] at h
      by_cases hs : b.sendersAlive = 0
      · exact hs
      · by_cases hd : b.disconnected
        · exact hInv hd
        · simp [hs, hd] at h
  · rintro ⟨hs, hne⟩
    have hfp : findPrio b.groups = none := by
      rw [findPrio_none]
      intro g hgmem
      rw [List.any_eq_false]
      intro r hrmem
      simp [hne g hgmem r hrmem]
    simp [MultiReceiver.recvBody, hfp, hs]

/-- Witness for C2: after the only sender of a one-channel bundle is dropped
with nothing queued, `recv` returns the terminal error. -/
theorem recv_all_senders_dropped_iff_witness :
    MultiReceiver.recvBody droppedTxDemo 0 = RecvOutcome.allSendersDropped :=
  (recv_all_senders_dropped_iff String droppedTxDemo 0 (fun _ => rfl)).mpr
    ⟨rfl, by decide⟩

/-- C3 (confirmed): a channel whose frozen flag is read as true during the
selection pass is never the source of the returned message: its whole record
(queue included) is unchanged by a successful `recv`. -/
theorem recv_never_pops_frozen (α : Type) (b : Bundle α) (pick : Nat) (m : α)
    (b2 : Bundle α) (h : MultiReceiver.recvBody b pick = RecvOutcome.ok m b2) :
    ∀ p j g r, b.groups.get? p = some g → g.get? j = some r → r.frozen = true →
      (b2.groups.get? p).bind (fun g2 => g2.get? j) = some r := by
  intro p j g r hg hr hfz
  obtain ⟨p0, g0, pr, hfp, hg0, hmem, hpop⟩ := recv_ok_shape b pick m b2 h
  obtain ⟨hget0, hfz0, hne0⟩ := mem_candPairs g0 pr hmem
  obtain ⟨hhead, hb2⟩ := popReturn_ok b p0 pr m b2 hpop
  subst hb2
  by_cases hpp : p = p0
  · subst hpp
    have hgg : g = g0 := by
      rw [hg] at hg0
      injection hg0
    subst hgg
    show ((updateAt (updateAt popQueue pr.1) p b.groups).get? p).bind _ = some r
    rw [updateAt_get?_eq, hg]
    by_cases hjj : j = pr.1
    · subst hjj
      rw [hr] at hget0
      injection hget0 with hrr
      rw [← hrr] at hfz0
      rw [hfz0] at hfz
      cases hfz
    · simp only [Option.map_some', Option.some_bind]
      rw [updateAt_get?_ne _ _ _ _ hjj]
      exact hr
  · show ((updateAt (updateAt popQueue pr.1) p0 b.groups).get? p).bind _ = some r
    rw [updateAt_get?_ne _ _ _ _ hpp, hg]
    simpa using hr

/-- Witness for C3: in a group with a frozen loaded channel and an unfrozen
loaded channel, `recv` pops the unfrozen one and the frozen record is
untouched. -/
theorem recv_never_pops_frozen_witness :
    (frozenDemoAfter.groups.get? 0).bind (fun g2 => g2.get? 0) = some frozenChan :=
  recv_never_pops_frozen String frozenDemo 0 "live-msg" frozenDemoAfter (by rfl)
    0 0 ((frozenDemo.groups.get? 0).getD []) frozenChan (by rfl) (by rfl) (by rfl)

/-- C4 (corrected), counterexample: `build` on a channel list containing a
weight-0 descriptor does not abort; it constructs and returns the bundle. -/
theorem build_weight_zero_counterexample :
    (MultiChannelBuilder.build Nat [[(0, none, false)]]).isSome = true := rfl

/-- C4 (corrected), amended claim: `build` performs no weight validation at
creation time; for every channel list (weight-0 descriptors included) it
constructs and returns the bundle instead of aborting. -/
theorem build_never_validates_weights (α : Type) (cs : List (List ChannelDesc)) :
    (MultiChannelBuilder.build α cs).isSome = true := rfl

/-- C5 (code_bug): `MultiSender::unfreeze` is a single store to the frozen
flag; it does not pulse the wake signal even when the unfrozen channel's FIFO
is non-empty. At the failing input (single frozen channel holding a message,
consumer parked with no token) the unfreeze leaves the token absent although
the channel became eligible, so the parked consumer is never woken. -/
theorem unfreeze_does_not_signal_wake :
    MultiSender.unfreeze c5bundle 0 = some c5after ∧
    c5after.wakeToken = false ∧
    queueOf c5after 0 = some ["pre"] ∧
    findPrio c5after.groups = some 0 ∧
    MultiReceiver.recvBody c5bundle 0 = RecvOutcome.park :=
  ⟨rfl, rfl, rfl, rfl, rfl⟩

/-- C8 (confirmed): once the receiver has been dropped, `send` with a valid
index returns `Err(ReceiverDropped)` immediately (no push, no block) and the
pending counter is unchanged (only the unpark token is set). -/
theorem send_after_receiver_dropped (α : Type) (b : Bundle α) (i : Nat) (m : α)
    (hr : b.receiverAlive = false) (hi : i < numChannels b) :
    MultiSender.send b i m = SendOutcome.err { b with wakeToken := true } ∧
    MultiSender.pending_msgs { b with wakeToken := true } =
      MultiSender.pending_msgs b := by
  constructor
  · unfold MultiSender.send
    rw [List.get?_eq_get hi]
    simp [hr]
  · rfl

/-- Witness for C8 on a concrete dropped-receiver bundle. -/
theorem send_after_receiver_dropped_witness :
    MultiSender.send droppedRxDemo 0 7 =
      SendOutcome.err { droppedRxDemo with wakeToken := true } ∧
    MultiSender.pending_msgs { droppedRxDemo with wakeToken := true } =
      MultiSender.pending_msgs droppedRxDemo :=
  send_after_receiver_dropped Nat droppedRxDemo 0 7 rfl (by decide)

/-- C9 (confirmed): for every valid channel index, the effect trace of `send`
starts with the unpark of the consumer followed by the push attempt: the wake
signal is pulsed before the (possibly blocking, capacity-0 rendezvous
included) push is entered. -/
theorem send_signals_before_push (α : Type) (b : Bundle α) (i : Nat)
    (hi : i < numChannels b) :
    (MultiSender.sendEvents b i).take 2 =
      [MultiSender.SendEvent.unparkSig, MultiSender.SendEvent.pushAttempt] := by
  unfold MultiSender.sendEvents
  rw [List.get?_eq_get hi]
  rfl

/-- Witness for C9 at the capacity-0 rendezvous channel of a concrete
bundle. -/
theorem send_signals_before_push_witness :
    (MultiSender.sendEvents twoChanDemo 0).take 2 =
      [MultiSender.SendEvent.unparkSig, MultiSender.SendEvent.pushAttempt] :=
  send_signals_before_push Nat twoChanDemo 0 (by decide)

end Multichannel

namespace Multichannel

/-! ## Flatten and build lemmas for the counter invariants -/

theorem updateFlatAt_flatten (f : Receiver α → Receiver α) (i : Nat)
    (gs : List (List (Receiver α))) :
    (updateFlatAt f i gs).flatten = updateAt f i gs.flatten := by
  induction gs generalizing i with
  | nil => cases i <;> rfl
  | cons g rest ih =>
    by_cases hlt : i < g.length
    · rw [updateFlatAt, if_pos hlt]
      rw [List.flatten_cons, List.flatten_cons, updateAt_append_left _ _ _ _ hlt]
    · rw [updateFlatAt, if_neg hlt]
      rw [List.flatten_cons, List.flatten_cons, ih,
        updateAt_append_right _ _ _ _ (by omega)]

theorem map_flatten_update_group (gfun : Receiver α → γ) (f : Receiver α → Receiver α)
    (p j : Nat) (gs : List (List (Receiver α))) (h : ∀ x, gfun (f x) = gfun x) :
    (updateAt (updateAt f j) p gs).flatten.map gfun = gs.flatten.map gfun := by
  induction gs generalizing p with
  | nil => cases p <;> rfl
  | cons g rest ih =>
    cases p with
    | zero => simp [updateAt, map_updateAt_comp _ _ _ _ h]
    | succ q => simp [updateAt, ih]

theorem sum_map_flatten_update (qlen : Receiver α → Nat) (f : Receiver α → Receiver α)
    (p j : Nat) (gs : List (List (Receiver α))) (g : List (Receiver α)) (x : Receiver α)
    (hg : gs.get? p = some g) (hx : g.get? j = some x) :
    ((updateAt (updateAt f j) p gs).flatten.map qlen).sum + qlen x =
      (gs.flatten.map qlen).sum + qlen (f x) := by
  induction gs generalizing p with
  | nil => simp at hg
  | cons g0 rest ih =>
    cases p with
    | zero =>
      have hg0 : g0 = g := by simpa using hg
      subst hg0
      simp only [updateAt, List.flatten_cons, List.map_append, List.sum_append]
      have := sum_map_updateAt qlen f j g0 x hx
      omega
    | succ q =>
      have hg' : rest.get? q = some g := by simpa using hg
      have := ih q hg'
      simp only [updateAt, List.flatten_cons, List.map_append, List.sum_append]
      omega

theorem buildGroup_map_orig (α : Type) (s : Nat) (g : List ChannelDesc) :
    (buildGroup α s g).map (fun r => r.original_index) = List.range' s g.length := by
  induction g generalizing s with
  | nil => rfl
  | cons d rest ih =>
    obtain ⟨w, bnd, f⟩ := d
    simp [buildGroup, List.range'_succ, ih]

theorem buildGroup_length (α : Type) (s : Nat) (g : List ChannelDesc) :
    (buildGroup α s g).length = g.length := by
  induction g generalizing s with
  | nil => rfl
  | cons d rest ih =>
    obtain ⟨w, bnd, f⟩ := d
    simp [buildGroup, ih]

theorem buildGroupsAux_map_orig (α : Type) (s : Nat) (cs : List (List ChannelDesc)) :
    (buildGroupsAux α s cs).flatten.map (fun r => r.original_index) =
      List.range' s (buildGroupsAux α s cs).flatten.length := by
  induction cs generalizing s with
  | nil => rfl
  | cons g rest ih =>
    simp only [buildGroupsAux, List.flatten_cons, List.map_append, List.length_append,
      buildGroup_map_orig, buildGroup_length, ih]
    have h := List.range'_append s g.length (buildGroupsAux α (s + g.length) rest).flatten.length 1
    simp only [Nat.one_mul] at h
    rw [Nat.add_comm g.length ((buildGroupsAux α (s + g.length) rest).flatten.length)]
    exact h

theorem buildGroup_queues_zero (α : Type) (s : Nat) (g : List ChannelDesc) :
    ((buildGroup α s g).map (fun r => r.queue.length)).sum = 0 := by
  induction g generalizing s with
  | nil => rfl
  | cons d rest ih =>
    obtain ⟨w, bnd, f⟩ := d
    simp [buildGroup, ih]

theorem buildGroupsAux_totalQueued (α : Type) (s : Nat) (cs : List (List ChannelDesc)) :
    ((buildGroupsAux α s cs).flatten.map (fun r => r.queue.length)).sum = 0 := by
  induction cs generalizing s with
  | nil => rfl
  | cons g rest ih =>
    simp only [buildGroupsAux, List.flatten_cons, List.map_append, List.sum_append]
    rw [buildGroup_queues_zero, ih]

theorem buildBundle_traceInv (α : Type) (cs : List (List ChannelDesc)) :
    TraceInv { bundle := buildBundle α cs, sendOks := 0, recvOks := 0 : Trace α } := by
  refine ⟨?_, ?_, rfl⟩
  · show (0 : Nat) = totalQueued (buildBundle α cs)
    unfold totalQueued flatChannels buildBundle
    rw [buildGroupsAux_totalQueued]
  · show origFlat (buildBundle α cs) = List.range (numChannels (buildBundle α cs))
    unfold origFlat numChannels flatChannels buildBundle
    rw [List.range_eq_range']
    exact buildGroupsAux_map_orig α 0 cs

theorem sum_range_get (f : β → Nat) (l : List β) :
    ((List.range l.length).map (fun i => ((l.get? i).map f).getD 0)).sum =
      (l.map f).sum := by
  induction l with
  | nil => rfl
  | cons x xs ih =>
    rw [List.length_cons, List.range_succ_eq_map]
    simp only [List.map_cons, List.map_map, List.sum_cons]
    have hcomp :
        ((fun i => (((x :: xs).get? i).map f).getD 0) ∘ Nat.succ) =
          fun i => ((xs.get? i).map f).getD 0 := by
      funext i
      rfl
    rw [hcomp, ih]
    rfl

end Multichannel

namespace Multichannel

/-! ## The receiver lookup loop agrees with the flat sender lookup -/

theorem orig_mem_bounds (l : List (Receiver α)) (s : Nat)
    (hidx : l.map (fun r => r.original_index) = List.range' s l.length)
    (r : Receiver α) (hr : r ∈ l) :
    s ≤ r.original_index ∧ r.original_index < s + l.length := by
  have hmem : r.original_index ∈ l.map (fun r => r.original_index) :=
    List.mem_map_of_mem _ hr
  rw [hidx] at hmem
  exact List.mem_range'_1.mp hmem

theorem find?_orig_none (l : List (Receiver α)) (s : Nat)
    (hidx : l.map (fun r => r.original_index) = List.range' s l.length)
    (index : Nat) (hout : index < s ∨ s + l.length ≤ index) :
    l.find? (fun r => r.original_index == index) = none := by
  rw [List.find?_eq_none]
  intro r hr
  have hb := orig_mem_bounds l s hidx r hr
  simp only [beq_iff_eq]
  omega

theorem find?_orig_range (l : List (Receiver α)) (s : Nat)
    (hidx : l.map (fun r => r.original_index) = List.range' s l.length)
    (k : Nat) (hk : k < l.length) :
    l.find? (fun r => r.original_index == s + k) = l.get? k := by
  induction l generalizing s k with
  | nil => simp at hk
  | cons r rest ih =>
    have hhead : r.original_index = s ∧
        rest.map (fun q => q.original_index) = List.range' (s + 1) rest.length := by
      rw [List.length_cons, List.range'_succ] at hidx
      simp only [List.map_cons, List.cons.injEq] at hidx
      exact hidx
    cases k with
    | zero =>
      simp [List.find?, hhead.1]
    | succ k' =>
      have hk' : k' < rest.length := by simpa using hk
      have ihk := ih (s + 1) hhead.2 k' hk'
      have hneq : (r.original_index == s + (k' + 1)) = false := by
        simp only [beq_eq_false_iff_ne, ne_eq, hhead.1]
        omega
      simp only [List.find?, hneq]
      rw [show s + (k' + 1) = (s + 1) + k' by omega]
      simpa using ihk

theorem pbcAux_eq (gs : List (List (Receiver α))) (cur : Nat)
    (hidx : gs.flatten.map (fun r => r.original_index) =
      List.range' cur gs.flatten.length) (index : Nat) :
    MultiReceiver.pbcAux index cur gs =
      (gs.flatten.find? (fun r => r.original_index == index)).map
        (fun r => r.queue.length) := by
  induction gs generalizing cur with
  | nil => cases cur <;> rfl
  | cons g rest ih =>
    have hsplit : g.map (fun r => r.original_index) = List.range' cur g.length ∧
        rest.flatten.map (fun r => r.original_index) =
          List.range' (cur + g.length) rest.flatten.length := by
      rw [List.flatten_cons, List.map_append, List.length_append] at hidx
      have happ := List.range'_append cur g.length rest.flatten.length 1
      simp only [Nat.one_mul] at happ
      rw [Nat.add_comm g.length rest.flatten.length, ← happ] at hidx
      have := List.append_inj hidx (by simp)
      exact this
    rw [List.flatten_cons, List.find?_append]
    by_cases hskip : cur + g.length ≤ index
    · rw [MultiReceiver.pbcAux, if_pos hskip]
      rw [ih (cur + g.length) hsplit.2 ]
      rw [find?_orig_none g cur hsplit.1 index (Or.inr hskip)]
      rfl
    · rw [MultiReceiver.pbcAux, if_neg hskip]
      cases hf : g.find? (fun r => r.original_index == index) with
      | some r => rfl
      | none =>
        have hrest : rest.flatten.find? (fun r => r.original_index == index) = none :=
          find?_orig_none rest.flatten (cur + g.length) hsplit.2 index (Or.inl (by omega))
        rw [hrest]
        rfl

theorem receiver_pbc_eq_sender_pbc (b : Bundle α) (hW : WellIndexed b) (index : Nat) :
    MultiReceiver.pending_msgs_by_channel b index =
      MultiSender.pending_msgs_by_channel b index := by
  have hidx : b.groups.flatten.map (fun r => r.original_index) =
      List.range' 0 b.groups.flatten.length := by
    have := hW
    unfold WellIndexed origFlat numChannels flatChannels at this
    rw [List.range_eq_range'] at this
    exact this
  unfold MultiReceiver.pending_msgs_by_channel MultiSender.pending_msgs_by_channel
  rw [pbcAux_eq b.groups 0 hidx index]
  show (b.groups.flatten.find? (fun r => r.original_index == index)).map
        (fun r => r.queue.length) =
      (b.groups.flatten.get? index).map (fun r => r.queue.length)
  by_cases hk : index < b.groups.flatten.length
  · have hfind := find?_orig_range b.groups.flatten 0 hidx index hk
    rw [Nat.zero_add] at hfind
    rw [hfind]
  · rw [find?_orig_none b.groups.flatten 0 hidx index (Or.inr (by omega)),
      List.get?_eq_none.mpr (by omega)]

end Multichannel

namespace Multichannel

/-! ## Shape of each operation's state change -/

theorem send_err_shape (b : Bundle α) (i : Nat) (m : α) (b2 : Bundle α)
    (h : MultiSender.send b i m = .err b2) : b2 = { b with wakeToken := true } := by
  unfold MultiSender.send at h
  cases hget : (flatChannels b).get? i with
  | none => rw [hget] at h; simp at h
  | some r =>
    rw [hget] at h
    dsimp only at h
    by_cases hra : b.receiverAlive = false
    · rw [if_pos hra] at h
      injection h with h1
      exact h1.symm
    · rw [if_neg hra] at h
      cases hb : r.bound with
      | some c =>
        rw [hb] at h
        dsimp only at h
        by_cases hlen : r.queue.length < c
        · rw [if_pos hlen] at h; simp at h
        · rw [if_neg hlen] at h; simp at h
      | none => rw [hb] at h; simp at h

theorem send_blocked_shape (b : Bundle α) (i : Nat) (m : α) (b2 : Bundle α)
    (h : MultiSender.send b i m = .blocked b2) : b2 = { b with wakeToken := true } := by
  unfold MultiSender.send at h
  cases hget : (flatChannels b).get? i with
  | none => rw [hget] at h; simp at h
  | some r =>
    rw [hget] at h
    dsimp only at h
    by_cases hra : b.receiverAlive = false
    · rw [if_pos hra] at h; simp at h
    · rw [if_neg hra] at h
      cases hb : r.bound with
      | some c =>
        rw [hb] at h
        dsimp only at h
        by_cases hlen : r.queue.length < c
        · rw [if_pos hlen] at h; simp at h
        · rw [if_neg hlen] at h
          injection h with h1
          exact h1.symm
      | none => rw [hb] at h; simp at h

theorem send_ok_shape (b : Bundle α) (i : Nat) (m : α) (b2 : Bundle α)
    (h : MultiSender.send b i m = .ok b2) :
    ∃ r, (flatChannels b).get? i = some r ∧
      b2.groups = updateFlatAt (fun q => { q with queue := q.queue ++ [m] }) i b.groups ∧
      b2.pending = b.pending + 1 := by
  unfold MultiSender.send at h
  cases hget : (flatChannels b).get? i with
  | none => rw [hget] at h; simp at h
  | some r =>
    rw [hget] at h
    dsimp only at h
    by_cases hra : b.receiverAlive = false
    · rw [if_pos hra] at h; simp at h
    · rw [if_neg hra] at h
      cases hb : r.bound with
      | some c =>
        rw [hb] at h
        dsimp only at h
        by_cases hlen : r.queue.length < c
        · rw [if_pos hlen] at h
          injection h with h1
          exact ⟨r, rfl, by rw [← h1]; rfl, by rw [← h1]⟩
        · rw [if_neg hlen] at h; simp at h
      | none =>
        rw [hb] at h
        dsimp only at h
        injection h with h1
        exact ⟨r, rfl, by rw [← h1]; rfl, by rw [← h1]⟩

theorem recv_ok_state (b : Bundle α) (pick : Nat) (m : α) (b2 : Bundle α)
    (h : MultiReceiver.recvBody b pick = .ok m b2) :
    ∃ p g j r, b.groups.get? p = some g ∧ g.get? j = some r ∧
      r.queue.isEmpty = false ∧
      b2.groups = updateAt (updateAt popQueue j) p b.groups ∧
      b2.pending = b.pending - 1 := by
  obtain ⟨p, g, pr, hfp, hg, hmem, hpop⟩ := recv_ok_shape b pick m b2 h
  obtain ⟨hget, hfz, hne⟩ := mem_candPairs g pr hmem
  obtain ⟨hhead, hb2⟩ := popReturn_ok b p pr m b2 hpop
  exact ⟨p, g, pr.1, pr.2, hg, hget, hne, by rw [hb2], by rw [hb2]⟩

/-! ## Preservation of the trace invariant -/

theorem totalQueued_groups_congr (b b2 : Bundle α)
    (h : b2.groups.flatten.map (fun r => r.queue.length) =
      b.groups.flatten.map (fun r => r.queue.length)) :
    totalQueued b2 = totalQueued b := by
  unfold totalQueued flatChannels
  rw [h]

theorem wellIndexed_of_origFlat_eq (b b2 : Bundle α)
    (h : origFlat b2 = origFlat b) (hb : WellIndexed b) : WellIndexed b2 := by
  unfold WellIndexed at hb ⊢
  have hlen : numChannels b2 = numChannels b := by
    unfold numChannels
    have := congrArg List.length h
    unfold origFlat at this
    simpa using this
  rw [h, hlen, hb]

theorem applyOp_inv (t : Trace α) (op : Op α) (ht : TraceInv t) :
    TraceInv (applyOp t op) := by
  obtain ⟨hq, hw, hc⟩ := ht
  cases op with
  | send i m =>
    unfold applyOp
    dsimp only
    cases hs : MultiSender.send t.bundle i m with
    | panicked => exact ⟨hq, hw, hc⟩
    | blocked b2 => exact ⟨hq, hw, hc⟩
    | err b2 =>
      have hshape := send_err_shape t.bundle i m b2 hs
      subst hshape
      exact ⟨hq, hw, hc⟩
    | ok b2 =>
      obtain ⟨r, hget, hgroups, hpending⟩ := send_ok_shape t.bundle i m b2 hs
      have hflat : b2.groups.flatten =
          updateAt (fun q => { q with queue := q.queue ++ [m] }) i t.bundle.groups.flatten := by
        rw [hgroups, updateFlatAt_flatten]
      have hsum := sum_map_updateAt (fun q => q.queue.length)
        (fun q => { q with queue := q.queue ++ [m] }) i t.bundle.groups.flatten r hget
      have hq2 : totalQueued b2 = totalQueued t.bundle + 1 := by
        unfold totalQueued flatChannels
        rw [hflat]
        simp only [List.length_append, List.length_cons, List.length_nil] at hsum
        omega
      refine ⟨?_, ?_, ?_⟩
      · show b2.pending = totalQueued b2
        rw [hpending, hq2, hq]
      · refine wellIndexed_of_origFlat_eq t.bundle b2 ?_ hw
        unfold origFlat flatChannels
        rw [hflat]
        exact map_updateAt_comp _ _ _ _ (fun x => rfl)
      · show b2.pending + t.recvOks = t.sendOks + 1
        rw [hpending]
        omega
  | recv pick =>
    unfold applyOp
    dsimp only
    cases hs : MultiReceiver.recvBody t.bundle pick with
    | ok m b2 =>
      obtain ⟨p, g, j, r, hg, hjr, hne, hgroups, hpending⟩ :=
        recv_ok_state t.bundle pick m b2 hs
      have hrq : r.queue.length = r.queue.tail.length + 1 := by
        cases hrr : r.queue with
        | nil => rw [hrr] at hne; simp at hne
        | cons a tl => simp [hrr]
      have hsum := sum_map_flatten_update (fun q => q.queue.length) popQueue
        p j t.bundle.groups g r hg hjr
      simp only at hsum
      have hlenpop : (popQueue r).queue.length = r.queue.tail.length := rfl
      have hrmem : r ∈ t.bundle.groups.flatten :=
        List.mem_flatten.mpr ⟨g, List.get?_mem hg, List.get?_mem hjr⟩
      have hrsum : r.queue.length ≤ (t.bundle.groups.flatten.map
          (fun q => q.queue.length)).sum :=
        List.single_le_sum (fun x _ => Nat.zero_le x) _
          (List.mem_map_of_mem _ hrmem)
      have hq2 : totalQueued b2 + 1 = totalQueued t.bundle := by
        unfold totalQueued flatChannels
        rw [hgroups]
        omega
      have hpos : 1 ≤ totalQueued t.bundle := by
        unfold totalQueued flatChannels
        omega
      refine ⟨?_, ?_, ?_⟩
      · show b2.pending = totalQueued b2
        rw [hpending, hq]
        omega
      · refine wellIndexed_of_origFlat_eq t.bundle b2 ?_ hw
        unfold origFlat flatChannels
        rw [hgroups]
        exact map_flatten_update_group _ _ _ _ _ (fun x => rfl)
      · show b2.pending + (t.recvOks + 1) = t.sendOks
        rw [hpending]
        omega
    | allSendersDropped => exact ⟨hq, hw, hc⟩
    | park => exact ⟨hq, hw, hc⟩
    | panicked => exact ⟨hq, hw, hc⟩
  | freeze i =>
    unfold applyOp
    dsimp only
    cases hs : MultiSender.freeze t.bundle i with
    | none => exact ⟨hq, hw, hc⟩
    | some b2 =>
      unfold MultiSender.freeze at hs
      by_cases hin : i < numChannels t.bundle
      · rw [if_pos hin] at hs
        injection hs with h1
        subst h1
        refine ⟨?_, ?_, hc⟩
        · show t.bundle.pending = totalQueued _
          rw [totalQueued_groups_congr t.bundle _ ?_]
          · exact hq
          · show (updateFlatAt _ i t.bundle.groups).flatten.map _ = _
            rw [updateFlatAt_flatten]
            exact map_updateAt_comp _ _ _ _ (fun x => rfl)
        · refine wellIndexed_of_origFlat_eq t.bundle _ ?_ hw
          show (updateFlatAt _ i t.bundle.groups).flatten.map _ = _
          rw [updateFlatAt_flatten]
          exact map_updateAt_comp _ _ _ _ (fun x => rfl)
      · rw [if_neg hin] at hs
        cases hs
  | unfreeze i =>
    unfold applyOp
    dsimp only
    cases hs : MultiSender.unfreeze t.bundle i with
    | none => exact ⟨hq, hw, hc⟩
    | some b2 =>
      unfold MultiSender.unfreeze at hs
      by_cases hin : i < numChannels t.bundle
      · rw [if_pos hin] at hs
        injection hs with h1
        subst h1
        refine ⟨?_, ?_, hc⟩
        · show t.bundle.pending = totalQueued _
          rw [totalQueued_groups_congr t.bundle _ ?_]
          · exact hq
          · show (updateFlatAt _ i t.bundle.groups).flatten.map _ = _
            rw [updateFlatAt_flatten]
            exact map_updateAt_comp _ _ _ _ (fun x => rfl)
        · refine wellIndexed_of_origFlat_eq t.bundle _ ?_ hw
          show (updateFlatAt _ i t.bundle.groups).flatten.map _ = _
          rw [updateFlatAt_flatten]
          exact map_updateAt_comp _ _ _ _ (fun x => rfl)
      · rw [if_neg hin] at hs
        cases hs
  | dropSender =>
    unfold applyOp MultiSender.dropSender
    dsimp only
    by_cases hcnt : t.bundle.sendersAlive + (if t.bundle.receiverAlive then 1 else 0) = 2
    · rw [if_pos hcnt]
      exact ⟨hq, hw, hc⟩
    · rw [if_neg hcnt]
      exact ⟨hq, hw, hc⟩
  | cloneSender =>
    unfold applyOp MultiSender.cloneSender
    dsimp only
    exact ⟨hq, hw, hc⟩

theorem runOps_inv (α : Type) (cs : List (List ChannelDesc)) (ops : List (Op α)) :
    TraceInv (runOps α cs ops) := by
  unfold runOps
  have hgen : ∀ (l : List (Op α)) (t : Trace α),
      TraceInv t → TraceInv (l.foldl applyOp t) := by
    intro l
    induction l with
    | nil => intro t ht; exact ht
    | cons op rest ih =>
      intro t ht
      exact ih (applyOp t op) (applyOp_inv t op ht)
  exact hgen ops _ (buildBundle_traceInv α cs)

end Multichannel

namespace Multichannel

theorem send_panicked_shape (b : Bundle α) (i : Nat) (m : α)
    (h : MultiSender.send b i m = .panicked) : (flatChannels b).get? i = none := by
  unfold MultiSender.send at h
  cases hget : (flatChannels b).get? i with
  | none => rfl
  | some r =>
    rw [hget] at h
    dsimp only at h
    by_cases hra : b.receiverAlive = false
    · rw [if_pos hra] at h
      simp at h
    · rw [if_neg hra] at h
      cases hb : r.bound with
      | some c =>
        rw [hb] at h
        dsimp only at h
        by_cases hlen : r.queue.length < c
        · rw [if_pos hlen] at h; simp at h
        · rw [if_neg hlen] at h; simp at h
      | none => rw [hb] at h; simp at h

/-- C6 (confirmed): at every quiescent instant (any state reached by a finite
sequence of completed API calls on a freshly built bundle), `pending_msgs()`
equals the number of sends that returned Ok minus the number of receives that
returned Ok. -/
theorem pending_counts_sends_minus_recvs (α : Type) (cs : List (List ChannelDesc))
    (ops : List (Op α)) :
    MultiReceiver.pending_msgs (runOps α cs ops).bundle =
      (runOps α cs ops).sendOks - (runOps α cs ops).recvOks ∧
    (runOps α cs ops).recvOks ≤ (runOps α cs ops).sendOks := by
  obtain ⟨hq, hw, hc⟩ := runOps_inv α cs ops
  constructor
  · show (runOps α cs ops).bundle.pending = _
    omega
  · omega

/-- C7 (confirmed): at every quiescent instant, the sum of
`pending_msgs_by_channel(i)` over all valid channel indices equals
`pending_msgs()`, on the sender handle and on the receiver handle alike. -/
theorem pending_by_channel_sums_to_pending (α : Type) (cs : List (List ChannelDesc))
    (ops : List (Op α)) :
    (((List.range (numChannels (runOps α cs ops).bundle)).map (fun i =>
        (MultiSender.pending_msgs_by_channel (runOps α cs ops).bundle i).getD 0)).sum =
      MultiSender.pending_msgs (runOps α cs ops).bundle) ∧
    (((List.range (numChannels (runOps α cs ops).bundle)).map (fun i =>
        (MultiReceiver.pending_msgs_by_channel (runOps α cs ops).bundle i).getD 0)).sum =
      MultiReceiver.pending_msgs (runOps α cs ops).bundle) := by
  obtain ⟨hq, hw, hc⟩ := runOps_inv α cs ops
  have hsend : ((List.range (numChannels (runOps α cs ops).bundle)).map (fun i =>
      (MultiSender.pending_msgs_by_channel (runOps α cs ops).bundle i).getD 0)).sum =
      MultiSender.pending_msgs (runOps α cs ops).bundle := by
    show ((List.range (flatChannels (runOps α cs ops).bundle).length).map (fun i =>
        (((flatChannels (runOps α cs ops).bundle).get? i).map
          (fun r => r.queue.length)).getD 0)).sum = (runOps α cs ops).bundle.pending
    rw [sum_range_get, hq]
    rfl
  refine ⟨hsend, ?_⟩
  have hpt : ∀ i, MultiReceiver.pending_msgs_by_channel (runOps α cs ops).bundle i =
      MultiSender.pending_msgs_by_channel (runOps α cs ops).bundle i :=
    receiver_pbc_eq_sender_pbc (runOps α cs ops).bundle hw
  simp only [hpt]
  exact hsend

/-- C10 (confirmed): for every index at or above the number of channels
configured at build time, `send`, `freeze`, `unfreeze` and both
`pending_msgs_by_channel` implementations panic (the receiver one through
its `unreachable!` arm); for every index below that bound, none of them
panics. -/
theorem indexed_ops_panic_iff_oob (α : Type) (b : Bundle α) (hW : WellIndexed b) :
    (∀ i m, numChannels b ≤ i →
      MultiSender.send b i m = SendOutcome.panicked ∧
      MultiSender.freeze b i = none ∧
      MultiSender.unfreeze b i = none ∧
      MultiSender.pending_msgs_by_channel b i = none ∧
      MultiReceiver.pending_msgs_by_channel b i = none) ∧
    (∀ i m, i < numChannels b →
      MultiSender.send b i m ≠ SendOutcome.panicked ∧
      (MultiSender.freeze b i).isSome = true ∧
      (MultiSender.unfreeze b i).isSome = true ∧
      (MultiSender.pending_msgs_by_channel b i).isSome = true ∧
      (MultiReceiver.pending_msgs_by_channel b i).isSome = true) := by
  constructor
  · intro i m hle
    have hnone : (flatChannels b).get? i = none := List.get?_eq_none.mpr hle
    refine ⟨?_, ?_, ?_, ?_, ?_⟩
    · unfold MultiSender.send
      rw [hnone]
    · unfold MultiSender.freeze
      rw [if_neg (by omega)]
    · unfold MultiSender.unfreeze
      rw [if_neg (by omega)]
    · unfold MultiSender.pending_msgs_by_channel
      rw [hnone]
      rfl
    · rw [receiver_pbc_eq_sender_pbc b hW i]
      unfold MultiSender.pending_msgs_by_channel
      rw [hnone]
      rfl
  · intro i m hlt
    have hsome : (flatChannels b).get? i = some ((flatChannels b).get ⟨i, hlt⟩) :=
      List.get?_eq_get hlt
    refine ⟨?_, ?_, ?_, ?_, ?_⟩
    · intro hcontra
      rw [send_panicked_shape b i m hcontra] at hsome
      cases hsome
    · unfold MultiSender.freeze
      rw [if_pos hlt]
      rfl
    · unfold MultiSender.unfreeze
      rw [if_pos hlt]
      rfl
    · unfold MultiSender.pending_msgs_by_channel
      rw [hsome]
      rfl
    · rw [receiver_pbc_eq_sender_pbc b hW i]
      unfold MultiSender.pending_msgs_by_channel
      rw [hsome]
      rfl

/-- Witness for C10 at the concrete two-channel bundle: index 5 panics in all
five indexed operations, index 0 in none of them. -/
theorem indexed_ops_panic_iff_oob_witness :
    (MultiSender.send twoChanDemo 5 (0 : Nat) = SendOutcome.panicked ∧
     MultiSender.freeze twoChanDemo 5 = none ∧
     MultiSender.unfreeze twoChanDemo 5 = none ∧
     MultiSender.pending_msgs_by_channel twoChanDemo 5 = none ∧
     MultiReceiver.pending_msgs_by_channel twoChanDemo 5 = none) ∧
    (MultiSender.send twoChanDemo 0 (0 : Nat) ≠ SendOutcome.panicked ∧
     (MultiSender.freeze twoChanDemo 0).isSome = true ∧
     (MultiSender.unfreeze twoChanDemo 0).isSome = true ∧
     (MultiSender.pending_msgs_by_channel twoChanDemo 0).isSome = true ∧
     (MultiReceiver.pending_msgs_by_channel twoChanDemo 0).isSome = true) :=
  ⟨(indexed_ops_panic_iff_oob Nat twoChanDemo rfl).1 5 0 (by decide),
   (indexed_ops_panic_iff_oob Nat twoChanDemo rfl).2 0 0 (by decide)⟩

end Multichannel

namespace Multichannel

/-- Witness for C6: the counter identity instantiated on a concrete run (one
send, one receive on a one-channel bundle). -/
theorem pending_counts_sends_minus_recvs_witness :
    MultiReceiver.pending_msgs
        (runOps Nat [[(1, none, false)]] [Op.send 0 7, Op.recv 0]).bundle =
      (runOps Nat [[(1, none, false)]] [Op.send 0 7, Op.recv 0]).sendOks -
        (runOps Nat [[(1, none, false)]] [Op.send 0 7, Op.recv 0]).recvOks ∧
    (runOps Nat [[(1, none, false)]] [Op.send 0 7, Op.recv 0]).recvOks ≤
      (runOps Nat [[(1, none, false)]] [Op.send 0 7, Op.recv 0]).sendOks :=
  pending_counts_sends_minus_recvs Nat [[(1, none, false)]] [Op.send 0 7, Op.recv 0]

/-- Witness for C7: the per-channel sum identity instantiated on a concrete
run (two sends on a two-channel bundle). -/
theorem pending_by_channel_sums_to_pending_witness :
    (((List.range (numChannels
        (runOps Nat [[(1, some 0, false)], [(2, none, false)]]
          [Op.send 1 5, Op.send 1 6]).bundle)).map (fun i =>
        (MultiSender.pending_msgs_by_channel
          (runOps Nat [[(1, some 0, false)], [(2, none, false)]]
            [Op.send 1 5, Op.send 1 6]).bundle i).getD 0)).sum =
      MultiSender.pending_msgs
        (runOps Nat [[(1, some 0, false)], [(2, none, false)]]
          [Op.send 1 5, Op.send 1 6]).bundle) ∧
    (((List.range (numChannels
        (runOps Nat [[(1, some 0, false)], [(2, none, false)]]
          [Op.send 1 5, Op.send 1 6]).bundle)).map (fun i =>
        (MultiReceiver.pending_msgs_by_channel
          (runOps Nat [[(1, some 0, false)], [(2, none, false)]]
            [Op.send 1 5, Op.send 1 6]).bundle i).getD 0)).sum =
      MultiReceiver.pending_msgs
        (runOps Nat [[(1, some 0, false)], [(2, none, false)]]
          [Op.send 1 5, Op.send 1 6]).bundle) :=
  pending_by_channel_sums_to_pending Nat [[(1, some 0, false)], [(2, none, false)]]
    [Op.send 1 5, Op.send 1 6]

end Multichannel
